import Mathlib

/-!
Verification of the CYD TFT RetroClock display engine
(`src/cyd_tft_clock.cpp`) against its natural-language specification.

The C++ source is shallowly embedded:

* the 64-byte framebuffer `byte scr[LINE_WIDTH * DISPLAY_ROWS]` becomes a
  total map `Int → Nat` (C++ array indices are `int`; every store in the
  source is guarded by an index-range check, and those guards are kept
  verbatim, so out-of-range cells of the map are never written);
* `uint16_t` RGB565 arithmetic becomes `Nat` arithmetic with the shift/mask
  idioms translated to explicit division and remainder by powers of two
  (`c >> 11` is `c / 2048`, `c & 0x1F` is `c % 32`, and packing
  `(r << 11) | (g << 5) | b` with `r < 32`, `g < 64`, `b < 32` is
  `r * 2048 + g * 32 + b`, since the three bit fields are disjoint);
* the TFT device and the per-logical-pixel renderer are modelled by the
  lists of draw calls they would issue;
* a PROGMEM font table (`const uint8_t *font`) is a total map `Nat → Nat`
  from byte offset to byte value, matching `pgm_read_byte(font + k)`.

The font tables themselves live in `fonts.h`, which is not part of this
snapshot; where a claim needs concrete glyph widths, fonts are modelled
from the spec (see the `Modelled from the spec:` definitions below).
-/

/-! ### Framebuffer: `byte scr[64]`, `clearScreen`, guarded stores -/

def LINE_WIDTH : Nat := 32

def DISPLAY_ROWS : Nat := 2

/-- One guarded framebuffer store.  In the source every assignment
`scr[bufferIndex] = v` sits under `bufferIndex >= 0 && bufferIndex < 64`;
this helper is that guard plus the assignment. -/
def scrStore (scr : Int → Nat) (idx : Int) (v : Nat) : Int → Nat :=
  if 0 ≤ idx ∧ idx < 64 then fun t => if t = idx then v else scr t else scr

/-- `clearScreen()`: zeroes the 64 buffer bytes. -/
def clearScreen (scr : Int → Nat) : Int → Nat :=
  fun t => if 0 ≤ t ∧ t < 64 then 0 else scr t

/-! ### Font helpers: `charWidth`, `drawCharWithY` (lines 448-502) -/

/-- `charWidth(c, font)`: returns 0 for characters outside
`[font[2], font[3]]`, otherwise walks the table (`offset += w*font[1]+1`
per glyph) and returns the width byte found at the final offset. -/
def charWidth (c : Nat) (f : Nat → Nat) : Nat :=
  if c < f 2 ∨ f 3 < c then 0
  else f ((List.range (c - f 2)).foldl (fun off _ => off + f off * f 1 + 1) 4)

/-- `fht8 = (fht + 7) / 8`: the number of byte-rows of a glyph. -/
def glyphRows (f : Nat → Nat) : Nat := (f 1 + 7) / 8

/-- The table offset of the glyph record of character `c`:
`font += 4 + c' * (fht8 * fwd + 1)` after `c -= offs`. -/
def glyphBase (f : Nat → Nat) (c : Nat) : Nat :=
  4 + (c - f 2) * (glyphRows f * f 0 + 1)

/-- The width byte `w = pgm_read_byte(font)` at the glyph record. -/
def glyphWidthAt (f : Nat → Nat) (c : Nat) : Nat := f (glyphBase f c)

/-- The body of the inner column loop of `drawCharWithY`: for column `i`,
`if (x + i >= 0 && x + i < LINE_WIDTH)` store the glyph column byte
`pgm_read_byte(font + 1 + fht8*i + j)` at `x + LINE_WIDTH*(j+yPos) + i`. -/
def drawCharColStep (x yPos : Int) (f : Nat → Nat) (base fht8 : Nat) (j : Nat)
    (s : Int → Nat) (i : Nat) : Int → Nat :=
  if 0 ≤ x + (i : Int) ∧ x + (i : Int) < 32 then
    scrStore s (x + 32 * ((j : Int) + yPos) + (i : Int)) (f (base + 1 + fht8 * i + j))
  else s

/-- One byte-row `j` of the glyph blit in `drawCharWithY`: the inner
`for (i = 0; i < w; i++)` column loop followed by the trailing blank
column written at `i = w`.  Both the `x+i` column guard and the
`bufferIndex` guard are kept exactly as in the source. -/
def drawCharRow (x yPos : Int) (f : Nat → Nat) (base fht8 w : Nat) (j : Nat)
    (scr : Int → Nat) : Int → Nat :=
  let scr1 := (List.range w).foldl (drawCharColStep x yPos f base fht8 j) scr
  if x + (w : Int) < 32 ∧ 0 ≤ x + (w : Int) then
    scrStore scr1 (x + 32 * ((j : Int) + yPos) + (w : Int)) 0
  else scr1

/-- `drawCharWithY(x, yPos, c, font)` (lines 470-502): returns the updated
framebuffer and the glyph advance width.  Characters outside
`[font[2], font[3]]` return 0 and write nothing.  For a supported
character the glyph record starts at offset `4 + c' * (fht8*fwd + 1)`;
its first byte is the width `w`, followed by `fht8` column bytes per
column. -/
def drawCharWithY (x yPos : Int) (c : Nat) (f : Nat → Nat)
    (scr : Int → Nat) : (Int → Nat) × Nat :=
  if c < f 2 ∨ f 3 < c then (scr, 0)
  else
    let fht8 := glyphRows f
    let base := glyphBase f c
    let w := f base
    ((List.range fht8).foldl (fun s j => drawCharRow x yPos f base fht8 w j s) scr, w)

/-! ### Color handling: `dimRGB565` (lines 285-295) and the RGB565 channels -/

/-- Red channel of a packed RGB565 color: `(color >> 11) & 0x1F`. -/
def r565 (c : Nat) : Nat := c / 2048 % 32

/-- Green channel of a packed RGB565 color: `(color >> 5) & 0x3F`. -/
def g565 (c : Nat) : Nat := c / 32 % 64

/-- Blue channel of a packed RGB565 color: `color & 0x1F`. -/
def b565 (c : Nat) : Nat := c % 32

/-- `dimRGB565(color, factor)`: unpack the three channels, divide each by
`factor + 1`, repack as `(r << 11) | (g << 5) | b` (written additively;
the fields are disjoint since each quotient is bounded by its field). -/
def dimRGB565 (color : Nat) (factor : Nat) : Nat :=
  (r565 color / (factor + 1)) * 2048 + (g565 color / (factor + 1)) * 32 +
    b565 color / (factor + 1)

/-! ### Style state and the `/style` web handlers (lines 207-212, 1177-1252) -/

/-- The display-style globals (lines 207-212). -/
structure StyleState where
  displayStyle : Nat
  ledOnColor : Nat
  ledSurroundColor : Nat
  ledOffColor : Nat
  surroundMatchesLED : Bool

/-- Initial values of the style globals (lines 207-212):
`displayStyle = 1`, `ledOnColor = COLOR_RED`,
`ledSurroundColor = COLOR_DARK_GRAY`, `ledOffColor = 0x2000`,
`surroundMatchesLED = false`. -/
def initStyleState : StyleState :=
  { displayStyle := 1, ledOnColor := 63488, ledSurroundColor := 31727,
    ledOffColor := 8192, surroundMatchesLED := false }

/-- The `ledcolor` branch of the `/style` handler (lines 1187-1208): picks
the preset for the index (default `COLOR_RED`), derives
`ledOffColor = ledOnColor >> 3` (written `/ 8`), and when
`surroundMatchesLED` is set also re-assigns `ledSurroundColor`. -/
def ledcolorHandler (idx : Int) (s : StyleState) : StyleState :=
  let onc : Nat :=
    if idx = 0 then 63488 else if idx = 1 then 2016 else if idx = 2 then 31
    else if idx = 3 then 65504 else if idx = 4 then 2047
    else if idx = 5 then 63519 else if idx = 6 then 65535
    else if idx = 7 then 64800 else 63488
  { s with
    ledOnColor := onc
    ledOffColor := onc / 8
    ledSurroundColor := if s.surroundMatchesLED then onc else s.ledSurroundColor }

/-- The `surroundcolor` branch of the `/style` handler (lines 1210-1252):
cases 0-6 pick a fixed preset and clear `surroundMatchesLED`; case 7 sets
`ledSurroundColor = ledOnColor` and sets the flag; the default matches
case 0's color with the flag cleared. -/
def surroundcolorHandler (idx : Int) (s : StyleState) : StyleState :=
  if idx = 0 then { s with ledSurroundColor := 65535, surroundMatchesLED := false }
  else if idx = 1 then { s with ledSurroundColor := 50712, surroundMatchesLED := false }
  else if idx = 2 then { s with ledSurroundColor := 31727, surroundMatchesLED := false }
  else if idx = 3 then { s with ledSurroundColor := 63488, surroundMatchesLED := false }
  else if idx = 4 then { s with ledSurroundColor := 2016, surroundMatchesLED := false }
  else if idx = 5 then { s with ledSurroundColor := 31, surroundMatchesLED := false }
  else if idx = 6 then { s with ledSurroundColor := 65504, surroundMatchesLED := false }
  else if idx = 7 then { s with ledSurroundColor := s.ledOnColor, surroundMatchesLED := true }
  else { s with ledSurroundColor := 65535, surroundMatchesLED := false }

/-! ### `drawLEDPixel` (lines 302-385), modelled as the list of TFT calls -/

/-- A call against the TFT surface. -/
inductive TftCall where
  | fillRect (x y w h : Int) (color : Nat)
  | drawPixel (x y : Int) (color : Nat)
deriving DecidableEq

/-- `tft.width()` in rotation 1 (landscape 320x240). -/
def tftWidth : Int := 320

def tftHeight : Int := 240

/-- `DISPLAY_WIDTH = LED_SIZE * TOTAL_WIDTH = 10 * 32`. -/
def DISPLAY_WIDTH : Int := 320

/-- `DISPLAY_HEIGHT = LED_SIZE * TOTAL_HEIGHT + 4 = 10 * 16 + 4`. -/
def DISPLAY_HEIGHT : Int := 164

/-- Horizontal centering offset (line 309). -/
def offsetX : Int :=
  if 0 < (tftWidth - DISPLAY_WIDTH) / 2 then (tftWidth - DISPLAY_WIDTH) / 2 else 0

/-- Vertical centering offset (line 310). -/
def offsetY : Int :=
  if 0 < (tftHeight - DISPLAY_HEIGHT) / 2 then (tftHeight - DISPLAY_HEIGHT) / 2 else 0

/-- `drawLEDPixel(x, y, lit)`: bounds check, then either the block style
(one `fillRect`) or the realistic style (background fill plus per-subpixel
radial classification).  `LED_SIZE = 10`. -/
def drawLEDPixel (cfg : StyleState) (x y : Int) (lit : Bool) : List TftCall :=
  if x < 0 ∨ 32 ≤ x ∨ y < 0 ∨ 16 ≤ y then []
  else
    let matrixGap : Int := if 8 ≤ y then 4 else 0
    let screenX := offsetX + x * 10
    let screenY := offsetY + y * 10 + matrixGap
    if cfg.displayStyle = 0 then
      [TftCall.fillRect screenX screenY 10 10 (if lit then cfg.ledOnColor else 0)]
    else if lit then
      TftCall.fillRect screenX screenY 10 10 cfg.ledSurroundColor ::
      (List.range 10).flatMap (fun py =>
        (List.range 10).map (fun px =>
          let dx : Int := (px : Int) * 2 - 10 + 1
          let dy : Int := (py : Int) * 2 - 10 + 1
          let distSq := dx * dx + dy * dy
          let pixelColor :=
            if distSq ≤ 16 then cfg.ledOnColor
            else if distSq ≤ 64 then cfg.ledOnColor
            else if distSq ≤ 100 then cfg.ledSurroundColor
            else 0
          TftCall.drawPixel (screenX + (px : Int)) (screenY + (py : Int)) pixelColor))
    else
      TftCall.fillRect screenX screenY 10 10 0 ::
      (List.range' 1 8).flatMap (fun py =>
        (List.range' 1 8).flatMap (fun px =>
          let dx : Int := (px : Int) * 2 - 10 + 1
          let dy : Int := (py : Int) * 2 - 10 + 1
          let distSq := dx * dx + dy * dy
          if distSq ≤ 36 then
            [TftCall.drawPixel (screenX + (px : Int)) (screenY + (py : Int)) 6144]
          else if distSq ≤ 64 then
            [TftCall.drawPixel (screenX + (px : Int)) (screenY + (py : Int))
              (dimRGB565 cfg.ledSurroundColor 7)]
          else []))

/-! ### `refreshAll` (lines 387-431, `FAST_REFRESH` enabled) -/

/-- The refresh-relevant state: the framebuffer `scr`, the shadow cache
`lastScr` (a function-scope `static`), and the `firstRun` /
`forceFullRedraw` flags. -/
structure ClockState where
  scr : Int → Nat
  lastScr : Int → Nat
  firstRun : Bool
  forceFullRedraw : Bool

/-- The `(row, displayX)` cell order of the nested refresh loops. -/
def cellOrder : List (Nat × Nat) :=
  (List.range DISPLAY_ROWS).flatMap (fun row =>
    (List.range LINE_WIDTH).map (fun dx => (row, dx)))

/-- The buffer index `displayX + row * LINE_WIDTH` of a cell. -/
def cellIdx (c : Nat × Nat) : Int := (c.2 : Int) + (c.1 : Int) * 32

/-- One iteration of the refresh loop body: if the cell's byte differs
from the shadow (or `firstRun` is set), update the shadow byte and record
the eight `drawLEDPixel(displayX, row*8+bitPos, lit)` invocations. -/
def refreshCell (scr : Int → Nat) (firstRun : Bool)
    (acc : (Int → Nat) × List (Nat × Nat × Bool)) (c : Nat × Nat) :
    (Int → Nat) × List (Nat × Nat × Bool) :=
  if 0 ≤ cellIdx c ∧ cellIdx c < 64 then
    let pixelByte := scr (cellIdx c)
    if firstRun = true ∨ pixelByte ≠ acc.1 (cellIdx c) then
      (fun t => if t = cellIdx c then pixelByte else acc.1 t,
       acc.2 ++ (List.range 8).map
         (fun b => (c.2, c.1 * 8 + b, decide (pixelByte / 2 ^ b % 2 = 1))))
    else acc
  else acc

/-- `refreshAll()`: under `forceFullRedraw` the shadow cache is first set
to the sentinel `0xFF` and `firstRun` re-armed, then every cell is diffed
against the shadow; the result is the new state together with the ordered
list of `drawLEDPixel` invocations `(displayX, displayY, lit)`.
`pixelByte & (1 << bitPos)` is written `pixelByte % 2^(b+1) / 2^b`. -/
def refreshAll (s : ClockState) : ClockState × List (Nat × Nat × Bool) :=
  let lastScr0 : Int → Nat :=
    if s.forceFullRedraw then (fun i => if 0 ≤ i ∧ i < 64 then 255 else s.lastScr i)
    else s.lastScr
  let firstRun0 : Bool := if s.forceFullRedraw then true else s.firstRun
  let force0 : Bool := if s.forceFullRedraw then false else s.forceFullRedraw
  let r := cellOrder.foldl (refreshCell s.scr firstRun0) (lastScr0, [])
  ({ scr := s.scr, lastScr := r.1, firstRun := false, forceFullRedraw := force0 }, r.2)

/-- The refresh order of all 512 logical pixel coordinates. -/
def allPixelCoords : List (Nat × Nat) :=
  cellOrder.flatMap (fun c => (List.range 8).map (fun b => (c.2, c.1 * 8 + b)))

/-! ### Fonts

`fonts.h` is not part of this snapshot, so the four font tables referenced
by the display code are modelled from the spec's `BitmapFont` data model
(`{cellWidth, cellHeight, firstChar, lastChar, glyphs[]}`, each glyph a
width byte followed by `ceil(cellHeight/8) * cellWidth` column bytes, in
the fixed-stride layout `4 + index * (fht8*cellWidth + 1)` that
`drawCharWithY` decodes).  Glyph advance widths follow the font names and
the repository documentation: digits carry the full cell width, and the
colon is a single column (the changelog records the `font3x7` colon bitmap
as the single byte `0x24`, and the troubleshooting guide describes the
colon slot as a 2-pixel reservation: one column plus one space).  Bitmap
column bytes are left at 0; no claim below depends on them. -/

/-- Modelled from the spec: the `digits5x8rn` table from the missing
`fonts.h`.  cellWidth 5, cellHeight 8, characters `'0'..':'`; digit
glyphs have width 5, the colon width 1. -/
def digits5x8rn : Nat → Nat := fun n =>
  if n = 0 then 5 else if n = 1 then 8 else if n = 2 then 48
  else if n = 3 then 58
  else if (n - 4) % 6 = 0 ∧ (n - 4) / 6 ≤ 10 then
    (if (n - 4) / 6 = 10 then 1 else 5)
  else 0

/-- Modelled from the spec: the `digits5x16rn` table from the missing
`fonts.h`.  cellWidth 5, cellHeight 16 (two byte-rows), characters
`'0'..':'`; digit glyphs have width 5, the colon width 1. -/
def digits5x16rn : Nat → Nat := fun n =>
  if n = 0 then 5 else if n = 1 then 16 else if n = 2 then 48
  else if n = 3 then 58
  else if (n - 4) % 11 = 0 ∧ (n - 4) / 11 ≤ 10 then
    (if (n - 4) / 11 = 10 then 1 else 5)
  else 0

/-- Modelled from the spec: the `digits3x5` table from the missing
`fonts.h`.  cellWidth 3, cellHeight 5, characters `'0'..'9'` only, all of
width 3. -/
def digits3x5 : Nat → Nat := fun n =>
  if n = 0 then 3 else if n = 1 then 5 else if n = 2 then 48
  else if n = 3 then 57
  else if (n - 4) % 4 = 0 ∧ (n - 4) / 4 ≤ 9 then 3
  else 0

/-- Modelled from the spec: the `font3x7` table from the missing
`fonts.h`.  cellWidth 3, cellHeight 7, printable ASCII `' '..'~'`; the
colon has width 1 (its bitmap is the single byte `0x24` per the
changelog), every other glyph carries the cell width 3. -/
def font3x7 : Nat → Nat := fun n =>
  if n = 0 then 3 else if n = 1 then 7 else if n = 2 then 32
  else if n = 3 then 126
  else if (n - 4) % 4 = 0 ∧ (n - 4) / 4 ≤ 94 then
    (if (n - 4) / 4 = 26 then 1 else 3)
  else 0

/-- The advance width `drawCharWithY` reports for character `c` of font
`f` (independent of position and buffer contents). -/
def glyphAdvance (f : Nat → Nat) (c : Nat) : Nat :=
  (drawCharWithY 0 0 c f (fun _ => 0)).2

/-! ### Mode composition (lines 577-731)

The mode renderers are embedded at the granularity of their
`drawCharWithY` invocations: each returns the updated framebuffer, the
final pen position `x`, and the list of character codes passed to the
blitter, in order.  This is exactly the information the text-level claims
are about. -/

/-- Decimal digits of `sprintf("%d", n)` for `0 ≤ n ≤ 99` (the ranges the
clock passes: hours, minutes, seconds, humidity). -/
def decChars (n : Nat) : List Nat :=
  if n < 10 then [48 + n] else [48 + n / 10 % 10, 48 + n % 10]

/-- Decimal digits of `sprintf("%02d", n)` for `0 ≤ n ≤ 99`. -/
def dec2Chars (n : Nat) : List Nat := [48 + n / 10 % 10, 48 + n % 10]

/-- Digits of `sprintf("%d", t)` for a possibly negative temperature. -/
def intDecChars (t : Int) : List Nat :=
  if t < 0 then 45 :: decChars t.natAbs else decChars t.toNat

/-- The unguarded draw loop
`for (p = buf; *p; p++) { x += drawCharWithY(x, yPos, *p, font); if (*(p+1)) x++; }`.
Returns the updated buffer, the final `x`, and the invoked characters. -/
def drawSeq (f : Nat → Nat) (yPos : Int) (scr : Int → Nat) (x : Int) :
    List Nat → (Int → Nat) × Int × List Nat
  | [] => (scr, x, [])
  | c :: rest =>
    let r := drawCharWithY x yPos c f scr
    let x1 : Int := x + r.2
    let x2 : Int := if rest = [] then x1 else x1 + 1
    let t := drawSeq f yPos r.1 x2 rest
    (t.1, t.2.1, c :: t.2.2)

/-- The guarded draw loop used for seconds and the bottom row:
`for (...) { if (x < outerLim) { x += drawCharWithY(...); if (*(p+1) && x < innerLim) x++; } }`. -/
def drawSeqGuarded (f : Nat → Nat) (yPos : Int) (outerLim innerLim : Int)
    (scr : Int → Nat) (x : Int) : List Nat → (Int → Nat) × Int × List Nat
  | [] => (scr, x, [])
  | c :: rest =>
    if x < outerLim then
      let r := drawCharWithY x yPos c f scr
      let x1 : Int := x + r.2
      let x2 : Int := if rest ≠ [] ∧ x1 < innerLim then x1 + 1 else x1
      let t := drawSeqGuarded f yPos outerLim innerLim r.1 x2 rest
      (t.1, t.2.1, c :: t.2.2)
    else
      let t := drawSeqGuarded f yPos outerLim innerLim scr x rest
      (t.1, t.2.1, t.2.2)

/-- Inputs `displayTimeAndTemp` reads from the time globals. -/
structure TimeVals where
  use24HourFormat : Bool
  hours : Nat
  hours24 : Nat
  minutes : Nat
  seconds : Nat

/-- Inputs `displayTimeAndTemp` reads from the sensor globals. -/
structure SensorVals where
  sensorAvailable : Bool
  useFahrenheit : Bool
  temperature : Int
  humidity : Nat

/-- Result of a mode renderer: the framebuffer, plus the character codes
handed to `drawCharWithY` on the top row and on the bottom row, in order. -/
structure ModeTrace where
  scr : Int → Nat
  row0 : List Nat
  row1 : List Nat

/-- `displayTimeAndTemp()` (lines 577-643): clears the buffer, draws the
hours (`"%d"`, no leading zero), a flashing colon (shown on even seconds;
`x += 1` after when shown, `x += 2` when hidden), the minutes (`"%02d"`),
then — unless 24-hour format with `hours24 >= 10` — the seconds in the
small `digits3x5` font behind the guards `x + 7 <= 32` and `x < 29`; the
bottom row is `"T<temp><unit> H<hum>%"` (or `"NO SENSOR"`) in `font3x7`
behind the same per-character guards. -/
def displayTimeAndTemp (tv : TimeVals) (sv : SensorVals)
    (scr : Int → Nat) : ModeTrace :=
  let scr0 := clearScreen scr
  let showDots := tv.seconds % 2 = 0
  let displayHours := if tv.use24HourFormat then tv.hours24 else tv.hours
  let canShowSeconds := ¬(tv.use24HourFormat ∧ 10 ≤ tv.hours24)
  let h := drawSeq digits5x8rn 0 scr0 0 (decChars displayHours)
  let colonPart : (Int → Nat) × Int × List Nat :=
    if showDots then
      let r := drawCharWithY h.2.1 0 58 digits5x8rn h.1
      (r.1, h.2.1 + (r.2 : Int) + 1, [58])
    else (h.1, h.2.1 + 2, [])
  let m := drawSeq digits5x8rn 0 colonPart.1 colonPart.2.1 (dec2Chars tv.minutes)
  let sPart : (Int → Nat) × Int × List Nat :=
    if canShowSeconds then
      let x1 : Int := m.2.1 + 1
      if x1 + 7 ≤ 32 then
        drawSeqGuarded digits3x5 0 29 32 m.1 x1 (dec2Chars tv.seconds)
      else (m.1, x1, [])
    else (m.1, m.2.1, [])
  let buf1 : List Nat :=
    if sv.sensorAvailable then
      let dt : Int :=
        if sv.useFahrenheit then (sv.temperature * 9).tdiv 5 + 32 else sv.temperature
      let unit : Nat := if sv.useFahrenheit then 70 else 67
      84 :: (intDecChars dt ++ (unit :: (32 :: (72 :: (decChars sv.humidity ++ [37])))))
    else [78, 79, 32, 83, 69, 78, 83, 79, 82]
  let r1 := drawSeqGuarded font3x7 1 29 32 sPart.1 0 buf1
  { scr := r1.1, row0 := h.2.2 ++ colonPart.2.2 ++ m.2.2 ++ sPart.2.2,
    row1 := r1.2.2 }

/-! ### The colon slot of the three modes (lines 598-604, 661-666, 702-707)

For claim C8 only the pen position reached after the colon slot matters;
these functions reproduce the code from the start of each mode up to and
including its colon branch. -/

/-- `displayTimeAndTemp`: hours from `x = 0`, then
`if (showDots) { x += drawCharWithY(x,0,':',digits5x8rn); x += 1; } else { x += 2; }`. -/
def mode0XAfterColon (h : Nat) (showDots : Bool) : Int :=
  let hr := drawSeq digits5x8rn 0 (fun _ => 0) 0 (decChars h)
  if showDots then
    hr.2.1 + ((drawCharWithY hr.2.1 0 58 digits5x8rn hr.1).2 : Int) + 1
  else hr.2.1 + 2

/-- `displayTimeLarge` (lines 645-666): hours from
`x = (displayHours > 9) ? 0 : 3` in `digits5x16rn`, then
`if (showDots) { x += drawCharWithY(x,0,':',digits5x16rn); } else { x += 1; }`. -/
def mode1XAfterColon (h : Nat) (showDots : Bool) : Int :=
  let x0 : Int := if 9 < h then 0 else 3
  let hr := drawSeq digits5x16rn 0 (fun _ => 0) x0 (decChars h)
  if showDots then
    hr.2.1 + ((drawCharWithY hr.2.1 0 58 digits5x16rn hr.1).2 : Int)
  else hr.2.1 + 1

/-- `displayTimeAndDate` (lines 686-731): hours from `x = 0` in
`digits5x8rn`, then the same colon branch as mode 0. -/
def mode2XAfterColon (h : Nat) (showDots : Bool) : Int :=
  let hr := drawSeq digits5x8rn 0 (fun _ => 0) 0 (decChars h)
  if showDots then
    hr.2.1 + ((drawCharWithY hr.2.1 0 58 digits5x8rn hr.1).2 : Int) + 1
  else hr.2.1 + 2

/-! ### Helper lemmas about the refresh fold -/

lemma cellIdx_mem_bounds : ∀ c ∈ cellOrder, 0 ≤ cellIdx c ∧ cellIdx c < 64 := by
  intro c hc
  simp only [cellOrder, DISPLAY_ROWS, LINE_WIDTH, List.mem_flatMap, List.mem_map,
    List.mem_range] at hc
  obtain ⟨row, hrow, dx, hdx, rfl⟩ := hc
  simp only [cellIdx]
  omega

lemma mem_cellOrder_of (i : Int) (h0 : 0 ≤ i) (h64 : i < 64) :
    ∃ c ∈ cellOrder, cellIdx c = i ∧ 0 ≤ i ∧ i < 64 := by
  refine ⟨(i.toNat / 32, i.toNat % 32), ?_, ?_, h0, h64⟩
  · simp only [cellOrder, DISPLAY_ROWS, LINE_WIDTH, List.mem_flatMap, List.mem_map,
      List.mem_range]
    exact ⟨i.toNat / 32, by omega, i.toNat % 32, by omega, rfl⟩
  · simp only [cellIdx]
    omega

lemma cellOrder_nodup : cellOrder.Nodup := by
  rw [cellOrder, List.nodup_flatMap]
  constructor
  · intro row hrow
    exact List.Nodup.map (fun a b hab => congrArg Prod.snd hab) (List.nodup_range 32)
  · refine List.Pairwise.imp ?_ (List.nodup_range DISPLAY_ROWS)
    intro r r' hne a ha ha'
    simp only [List.mem_map, List.mem_range] at ha ha'
    obtain ⟨dx, hdx, rfl⟩ := ha
    obtain ⟨dx', hdx', heq⟩ := ha'
    exact hne (congrArg Prod.fst heq).symm

lemma allPixelCoords_nodup : allPixelCoords.Nodup := by
  rw [allPixelCoords, List.nodup_flatMap]
  constructor
  · intro c hc
    refine List.Nodup.map ?_ (List.nodup_range 8)
    intro b b' hbb'
    have h2 : c.1 * 8 + b = c.1 * 8 + b' := congrArg Prod.snd hbb'
    omega
  · refine List.Pairwise.imp ?_ cellOrder_nodup
    intro c c' hne a ha ha'
    simp only [List.mem_map, List.mem_range] at ha ha'
    obtain ⟨b, hb, rfl⟩ := ha
    obtain ⟨b', hb', heq⟩ := ha'
    have h1 : c'.2 = c.2 := congrArg Prod.fst heq
    have h2 : c'.1 * 8 + b' = c.1 * 8 + b := congrArg Prod.snd heq
    have h3 : c'.1 = c.1 := by omega
    exact hne (Prod.ext h3.symm h1.symm)

lemma refresh_foldl_fst (scr : Int → Nat) (fr : Bool) (t : Int) :
    ∀ (L : List (Nat × Nat)) (acc : (Int → Nat) × List (Nat × Nat × Bool)),
    (L.foldl (refreshCell scr fr) acc).1 t =
      if ∃ c ∈ L, cellIdx c = t ∧ 0 ≤ t ∧ t < 64 then scr t else acc.1 t := by
  intro L
  induction L with
  | nil => simp
  | cons c L ih =>
    intro acc
    rw [List.foldl_cons, ih]
    by_cases hmem : ∃ c' ∈ L, cellIdx c' = t ∧ 0 ≤ t ∧ t < 64
    · simp only [hmem, if_true]
      rw [if_pos]
      obtain ⟨c', h1, h2⟩ := hmem
      exact ⟨c', List.mem_cons_of_mem _ h1, h2⟩
    · simp only [hmem, if_false]
      by_cases hc : cellIdx c = t ∧ 0 ≤ t ∧ t < 64
      · rw [if_pos ⟨c, List.mem_cons_self c L, hc⟩]
        unfold refreshCell
        rw [if_pos (by rw [hc.1]; exact hc.2)]
        by_cases hcond : fr = true ∨ scr (cellIdx c) ≠ acc.1 (cellIdx c)
        · rw [if_pos hcond]
          simp [hc.1]
        · rw [if_neg hcond]
          push_neg at hcond
          rw [← hc.1, ← hcond.2]
      · rw [if_neg (by
          rintro ⟨c', hmem', h'⟩
          rcases List.mem_cons.mp hmem' with rfl | hin
          · exact hc h'
          · exact hmem ⟨c', hin, h'⟩)]
        unfold refreshCell
        by_cases hg : 0 ≤ cellIdx c ∧ cellIdx c < 64
        · rw [if_pos hg]
          by_cases hcond : fr = true ∨ scr (cellIdx c) ≠ acc.1 (cellIdx c)
          · rw [if_pos hcond]
            simp only
            rw [if_neg]
            intro h
            exact hc ⟨h.symm ▸ rfl, h ▸ hg⟩
          · rw [if_neg hcond]
        · rw [if_neg hg]

lemma refresh_foldl_steady (scr : Int → Nat) :
    ∀ (L : List (Nat × Nat)) (ls : Int → Nat) (cs : List (Nat × Nat × Bool)),
    (∀ c ∈ L, ls (cellIdx c) = scr (cellIdx c)) →
    L.foldl (refreshCell scr false) (ls, cs) = (ls, cs) := by
  intro L
  induction L with
  | nil => simp
  | cons c L ih =>
    intro ls cs h
    rw [List.foldl_cons]
    have hstep : refreshCell scr false (ls, cs) c = (ls, cs) := by
      unfold refreshCell
      by_cases hg : 0 ≤ cellIdx c ∧ cellIdx c < 64
      · rw [if_pos hg, if_neg]
        push_neg
        exact ⟨by simp, by simpa using (h c (List.mem_cons_self c L)).symm⟩
      · rw [if_neg hg]
    rw [hstep]
    exact ih ls cs fun c' hc' => h c' (List.mem_cons_of_mem _ hc')

lemma refresh_foldl_snd_first (scr : Int → Nat) :
    ∀ (L : List (Nat × Nat)) (acc : (Int → Nat) × List (Nat × Nat × Bool)),
    (∀ c ∈ L, 0 ≤ cellIdx c ∧ cellIdx c < 64) →
    (L.foldl (refreshCell scr true) acc).2 =
      acc.2 ++ L.flatMap (fun c => (List.range 8).map
        (fun b => (c.2, c.1 * 8 + b, decide (scr (cellIdx c) / 2 ^ b % 2 = 1)))) := by
  intro L
  induction L with
  | nil => simp
  | cons c L ih =>
    intro acc h
    rw [List.foldl_cons]
    have hstep : refreshCell scr true acc c =
        (fun t => if t = cellIdx c then scr (cellIdx c) else acc.1 t,
         acc.2 ++ (List.range 8).map
           (fun b => (c.2, c.1 * 8 + b, decide (scr (cellIdx c) / 2 ^ b % 2 = 1)))) := by
      unfold refreshCell
      rw [if_pos (h c (List.mem_cons_self c L)), if_pos (Or.inl rfl)]
    rw [hstep, ih _ fun c' hc' => h c' (List.mem_cons_of_mem _ hc'), List.flatMap_cons,
      List.append_assoc]

/-! ### Claim C1 -/

/-- C1: Idempotent refresh.  For every state, a second `refreshAll()` run
immediately after a first one — with no framebuffer mutation and no
forced-redraw request in between — issues zero `drawLEDPixel` invocations,
because after the first pass every cell's byte equals its shadow-cache
byte (the second conjunct). -/
theorem c1_refresh_idempotent (s : ClockState) :
    (refreshAll (refreshAll s).1).2 = [] ∧
    ∀ i : Int, 0 ≤ i → i < 64 → (refreshAll s).1.lastScr i = s.scr i := by
  have hshadow : ∀ i : Int, 0 ≤ i → i < 64 → (refreshAll s).1.lastScr i = s.scr i := by
    intro i h0 h64
    simp only [refreshAll]
    rw [refresh_foldl_fst, if_pos (mem_cellOrder_of i h0 h64)]
  refine ⟨?_, hshadow⟩
  have hff : (refreshAll s).1.forceFullRedraw = false := by
    cases hf : s.forceFullRedraw <;> simp [refreshAll, hf]
  conv_lhs => rw [refreshAll]
  simp only [hff, Bool.false_eq_true, if_false]
  have hfr : (refreshAll s).1.firstRun = false := rfl
  have hscr : (refreshAll s).1.scr = s.scr := rfl
  rw [hfr, hscr, refresh_foldl_steady s.scr cellOrder _ []
    (fun c hc => hshadow (cellIdx c) (cellIdx_mem_bounds c hc).1 (cellIdx_mem_bounds c hc).2)]

/-- Concrete instance of `c1_refresh_idempotent`. -/
theorem c1_refresh_idempotent_witness :
    (0 : Int) ≤ 5 ∧ (5 : Int) < 64 ∧
    (refreshAll (refreshAll ⟨fun i => if i = 5 then 9 else 0, fun _ => 0, true, false⟩).1).2
      = [] ∧
    (refreshAll ⟨fun i => if i = 5 then 9 else 0, fun _ => 0, true, false⟩).1.lastScr 5 =
      (⟨fun i => if i = 5 then 9 else 0, fun _ => 0, true, false⟩ : ClockState).scr 5 :=
  ⟨by decide, by decide,
   (c1_refresh_idempotent ⟨fun i => if i = 5 then 9 else 0, fun _ => 0, true, false⟩).1,
   (c1_refresh_idempotent ⟨fun i => if i = 5 then 9 else 0, fun _ => 0, true, false⟩).2 5
     (by decide) (by decide)⟩

/-! ### Claim C2 -/

set_option maxRecDepth 4000 in
/-- C2: Forced redraw.  For every prior state, after setting
`forceFullRedraw` the next `refreshAll()` issues exactly one
`drawLEDPixel` invocation per logical pixel: the invocation coordinates
are exactly the 512-entry, duplicate-free enumeration `allPixelCoords`
that covers every `(x, y)` with `x < 32`, `y < 16`; afterwards both
`forceFullRedraw` and `firstRun` are cleared. -/
theorem c2_forced_redraw (s : ClockState) :
    ((refreshAll { s with forceFullRedraw := true }).2.map (fun dc => (dc.1, dc.2.1)) =
      allPixelCoords) ∧
    (refreshAll { s with forceFullRedraw := true }).2.length = 512 ∧
    allPixelCoords.Nodup ∧
    (∀ x, x < 32 → ∀ y, y < 16 → (x, y) ∈ allPixelCoords) ∧
    (refreshAll { s with forceFullRedraw := true }).1.forceFullRedraw = false ∧
    (refreshAll { s with forceFullRedraw := true }).1.firstRun = false := by
  have hcalls : (refreshAll { s with forceFullRedraw := true }).2 =
      cellOrder.flatMap (fun c => (List.range 8).map
        (fun b => (c.2, c.1 * 8 + b, decide (s.scr (cellIdx c) / 2 ^ b % 2 = 1)))) := by
    simp only [refreshAll, if_true]
    rw [refresh_foldl_snd_first s.scr cellOrder _ cellIdx_mem_bounds]
    simp
  have hmap : (refreshAll { s with forceFullRedraw := true }).2.map
      (fun dc => (dc.1, dc.2.1)) = allPixelCoords := by
    rw [hcalls, List.map_flatMap]
    simp only [List.map_map]
    rfl
  refine ⟨hmap, ?_, allPixelCoords_nodup, ?_, by simp [refreshAll], rfl⟩
  · have h1 : (refreshAll { s with forceFullRedraw := true }).2.length =
        allPixelCoords.length := by rw [← hmap, List.length_map]
    rw [h1]
    rfl
  · intro x hx y hy
    simp only [allPixelCoords, cellOrder, DISPLAY_ROWS, LINE_WIDTH, List.mem_flatMap,
      List.mem_map, List.mem_range]
    refine ⟨(y / 8, x), ⟨y / 8, by omega, ⟨x, by omega, rfl⟩⟩, ⟨y % 8, by omega, ?_⟩⟩
    rw [Prod.mk.injEq]
    exact ⟨rfl, by omega⟩

/-- Concrete instance of `c2_forced_redraw`. -/
theorem c2_forced_redraw_witness :
    3 < 32 ∧ 9 < 16 ∧ (3, 9) ∈ allPixelCoords ∧
    (refreshAll { (⟨fun _ => 0, fun _ => 0, false, false⟩ : ClockState) with
      forceFullRedraw := true }).2.length = 512 :=
  ⟨by decide, by decide,
   (c2_forced_redraw ⟨fun _ => 0, fun _ => 0, false, false⟩).2.2.2.1 3 (by decide) 9
     (by decide),
   (c2_forced_redraw ⟨fun _ => 0, fun _ => 0, false, false⟩).2.1⟩

/-! ### Claim C10 -/

/-- C10: `refreshAll` only reads the framebuffer: the `scr` component of
the state after the call is (pointwise, definitionally) the `scr` it was
called with; the call can change only the shadow cache, `firstRun` and
`forceFullRedraw`, which are the remaining fields of `ClockState`. -/
theorem c10_refresh_preserves_framebuffer (s : ClockState) :
    (refreshAll s).1.scr = s.scr := rfl

/-! ### Claim C6 -/

/-- C6: Surround-color consistency.  After any run of the `ledcolor`
branch of the `/style` handler, if the surround-matches-LED flag is set
then `ledSurroundColor` equals the freshly assigned `ledOnColor`; and the
`surroundcolor` branch (the only other color-update operation on these
fields) also re-establishes the invariant for every index. -/
theorem c6_surround_invariant (s : StyleState) (idx : Int) :
    ((ledcolorHandler idx s).surroundMatchesLED = true →
      (ledcolorHandler idx s).ledSurroundColor = (ledcolorHandler idx s).ledOnColor) ∧
    ((surroundcolorHandler idx s).surroundMatchesLED = true →
      (surroundcolorHandler idx s).ledSurroundColor =
        (surroundcolorHandler idx s).ledOnColor) := by
  constructor
  · intro h
    have hflag : s.surroundMatchesLED = true := by simpa [ledcolorHandler] using h
    simp [ledcolorHandler, hflag]
  · intro h
    unfold surroundcolorHandler at h ⊢
    split_ifs at h ⊢
    all_goals simp_all

/-- Concrete instance of `c6_surround_invariant`: switching the LED color
to green while the flag is set keeps `surroundColor = onColor`. -/
theorem c6_surround_invariant_witness :
    (ledcolorHandler 1 ⟨1, 63488, 63488, 7936, true⟩).surroundMatchesLED = true ∧
    (ledcolorHandler 1 ⟨1, 63488, 63488, 7936, true⟩).ledSurroundColor =
      (ledcolorHandler 1 ⟨1, 63488, 63488, 7936, true⟩).ledOnColor :=
  ⟨by decide, (c6_surround_invariant ⟨1, 63488, 63488, 7936, true⟩ 1).1 (by decide)⟩

/-! ### Claim C7 -/

/-- C7: Unsupported-glyph no-op.  For every character outside the font's
`[firstChar, lastChar]` range, `charWidth` returns 0 and `drawCharWithY`
returns the framebuffer untouched together with advance width 0 — no
error signal exists in either function. -/
theorem c7_unsupported_glyph (f : Nat → Nat) (c : Nat) (x yPos : Int)
    (scr : Int → Nat) (h : c < f 2 ∨ f 3 < c) :
    charWidth c f = 0 ∧ drawCharWithY x yPos c f scr = (scr, 0) := by
  constructor
  · rw [charWidth, if_pos h]
  · rw [drawCharWithY, if_pos h]

/-- A font table whose every byte is 48, used only to instantiate
theorems at a concrete out-of-range character. -/
def fontW48 : Nat → Nat := fun _ => 48

/-- The all-zero framebuffer. -/
def scrZero : Int → Nat := fun _ => 0

/-- Concrete instance of `c7_unsupported_glyph` at character `'A'` (65),
outside the range `[48, 48]` of `fontW48`. -/
theorem c7_unsupported_glyph_witness :
    ((65 : Nat) < fontW48 2 ∨ fontW48 3 < 65) ∧ charWidth 65 fontW48 = 0 ∧
      drawCharWithY 0 0 65 fontW48 scrZero = (scrZero, 0) :=
  ⟨Or.inr (by decide), (c7_unsupported_glyph fontW48 65 0 0 scrZero (Or.inr (by decide))).1,
   (c7_unsupported_glyph fontW48 65 0 0 scrZero (Or.inr (by decide))).2⟩

/-! ### Claim C9 -/

lemma rgb565_pack_channels (r g b : Nat) (hr : r ≤ 31) (hg : g ≤ 63) (hb : b ≤ 31) :
    r565 (r * 2048 + g * 32 + b) = r ∧ g565 (r * 2048 + g * 32 + b) = g ∧
      b565 (r * 2048 + g * 32 + b) = b := by
  unfold r565 g565 b565
  omega

/-- C9 (counterexample): not every color-dimming computation in the code
divides the channels independently.  The `ledcolor` handler derives the
off-LED color as `ledOnColor >> 3`, a shift of the packed value: for pure
red `COLOR_RED = 0xF800` the result `0x1F00` has green channel 56 where
the on-color's green channel is 0, so the red:green ratio is not
preserved. -/
theorem c9_dimming_counterexample :
    (ledcolorHandler 0 initStyleState).ledOnColor = 63488 ∧
    (ledcolorHandler 0 initStyleState).ledOffColor = 7936 ∧
    g565 63488 = 0 ∧ g565 7936 = 56 ∧
    g565 7936 * r565 63488 ≠ g565 63488 * r565 7936 := by decide

/-- C9 (amended): `dimRGB565` itself unpacks the packed RGB565 color,
divides each channel independently by `factor + 1` and repacks — the
channels of its result are exactly the divided channels of its input —
while the off-LED color assigned by the `ledcolor` handler is instead the
packed `ledOnColor` shifted right by 3 bits (`/ 8`), which crosses
channel boundaries. -/
theorem c9_dimming_channels (c factor : Nat) (s : StyleState) (idx : Int) :
    r565 (dimRGB565 c factor) = r565 c / (factor + 1) ∧
    g565 (dimRGB565 c factor) = g565 c / (factor + 1) ∧
    b565 (dimRGB565 c factor) = b565 c / (factor + 1) ∧
    (ledcolorHandler idx s).ledOffColor = (ledcolorHandler idx s).ledOnColor / 8 := by
  have hr : r565 c / (factor + 1) ≤ 31 :=
    le_trans (Nat.div_le_self _ _) (by unfold r565; omega)
  have hg : g565 c / (factor + 1) ≤ 63 :=
    le_trans (Nat.div_le_self _ _) (by unfold g565; omega)
  have hb : b565 c / (factor + 1) ≤ 31 :=
    le_trans (Nat.div_le_self _ _) (by unfold b565; omega)
  have hp := rgb565_pack_channels _ _ _ hr hg hb
  exact ⟨hp.1, hp.2.1, hp.2.2, by simp [ledcolorHandler]⟩

/-! ### Claim C4 -/

lemma scrStore_out (s : Int → Nat) (idx : Int) (v : Nat) (t : Int)
    (ht : ¬(0 ≤ t ∧ t < 64)) : scrStore s idx v t = s t := by
  unfold scrStore
  split_ifs with h
  · simp only
    rw [if_neg]
    rintro rfl
    exact ht h
  · rfl

lemma foldl_pointwise {α : Type} (t : Int) (step : (Int → Nat) → α → (Int → Nat))
    (hstep : ∀ s a, step s a t = s t) :
    ∀ (L : List α) (s : Int → Nat), (L.foldl step s) t = s t := by
  intro L
  induction L with
  | nil => intro s; rfl
  | cons a L ih =>
    intro s
    rw [List.foldl_cons, ih, hstep]

lemma drawCharRow_out (x yPos : Int) (f : Nat → Nat) (base fht8 w j : Nat)
    (scr : Int → Nat) (t : Int) (ht : ¬(0 ≤ t ∧ t < 64)) :
    drawCharRow x yPos f base fht8 w j scr t = scr t := by
  unfold drawCharRow
  have hfold := foldl_pointwise t (drawCharColStep x yPos f base fht8 j)
    (fun s i => by
      unfold drawCharColStep
      split_ifs
      · exact scrStore_out _ _ _ _ ht
      · rfl)
    (List.range w) scr
  split_ifs with h
  · rw [scrStore_out _ _ _ _ ht, hfold]
  · rw [hfold]

/-- C4: Bounds safety.  First conjunct: for every `(x, y)` outside the
32x16 logical extent, `drawLEDPixel` returns without issuing any TFT draw
call (and, taking no framebuffer argument, cannot touch `scr`).  Second
conjunct: every framebuffer write inside the glyph blitter is guarded, so
`drawCharWithY` never changes any cell outside the 64-byte buffer. -/
theorem c4_bounds_safety :
    (∀ (cfg : StyleState) (x y : Int) (lit : Bool),
      x < 0 ∨ 32 ≤ x ∨ y < 0 ∨ 16 ≤ y → drawLEDPixel cfg x y lit = []) ∧
    (∀ (x yPos : Int) (c : Nat) (f : Nat → Nat) (scr : Int → Nat) (t : Int),
      ¬(0 ≤ t ∧ t < 64) → (drawCharWithY x yPos c f scr).1 t = scr t) := by
  constructor
  · intro cfg x y lit h
    rw [drawLEDPixel, if_pos h]
  · intro x yPos c f scr t ht
    rw [drawCharWithY]
    split_ifs with h
    · rfl
    · exact foldl_pointwise t _ (fun s j => drawCharRow_out x yPos f _ _ _ j s t ht) _ scr

/-- Concrete instance of `c4_bounds_safety`: the pixel `(-5, 2)` is
dropped silently, and a glyph blit leaves the out-of-buffer index 99
untouched. -/
theorem c4_bounds_safety_witness :
    ((-5 : Int) < 0 ∨ (32 : Int) ≤ -5 ∨ (2 : Int) < 0 ∨ (16 : Int) ≤ 2) ∧
    drawLEDPixel initStyleState (-5) 2 true = [] ∧
    ¬((0 : Int) ≤ 99 ∧ (99 : Int) < 64) ∧
    (drawCharWithY 0 0 48 fontW48 scrZero).1 99 = scrZero 99 :=
  ⟨Or.inl (by decide), c4_bounds_safety.1 initStyleState (-5) 2 true (Or.inl (by decide)),
   by decide, c4_bounds_safety.2 0 0 48 fontW48 scrZero 99 (by decide)⟩

/-! ### Claim C8 -/

lemma colonAdvance58 (x yPos : Int) (scr : Int → Nat) :
    (drawCharWithY x yPos 58 digits5x8rn scr).2 = 1 := rfl

lemma colonAdvance516 (x yPos : Int) (scr : Int → Nat) :
    (drawCharWithY x yPos 58 digits5x16rn scr).2 = 1 := rfl

/-- C8: Colon reserves fixed spacing.  In each of the three display
modes, the pen position reached after the colon slot is the same on an
even second (colon drawn) as on an odd second (colon hidden), for every
hour value, so hiding the colon never shifts the glyphs drawn after it. -/
theorem c8_colon_fixed_spacing (h : Nat) :
    mode0XAfterColon h true = mode0XAfterColon h false ∧
    mode1XAfterColon h true = mode1XAfterColon h false ∧
    mode2XAfterColon h true = mode2XAfterColon h false := by
  refine ⟨?_, ?_, ?_⟩
  · simp only [mode0XAfterColon, colonAdvance58, if_true, if_false]
    omega
  · simp only [mode1XAfterColon, colonAdvance516, if_true, if_false]
    omega
  · simp only [mode2XAfterColon, colonAdvance58, if_true, if_false]
    omega

/-! ### Claim C5 -/

/-- C5: evaluation of `displayTimeAndTemp` at the claim's scenario
(12-hour mode, 2:07, 14 h in 24-hour terms, sensor present, 23 °C, 45 %
humidity).  On an even second (0) the top row receives the characters
`"2:0700"` — the colon, then the minutes, then the seconds `"00"` in the
small font — and on an odd second (1) the colon is absent.  No `'P'` (80)
and no `'M'` (77) is ever drawn on the top row: the code composes no
AM/PM indicator, and it does compose the seconds.  The bottom row
receives `"T23C H45"` (the trailing `'%'` falls to the `x < 29` guard
with the modelled 3-wide font). -/
theorem c5_mode0_scenario :
    (displayTimeAndTemp ⟨false, 2, 14, 7, 0⟩ ⟨true, false, 23, 45⟩ scrZero).row0 =
      [50, 58, 48, 55, 48, 48] ∧
    (displayTimeAndTemp ⟨false, 2, 14, 7, 1⟩ ⟨true, false, 23, 45⟩ scrZero).row0 =
      [50, 48, 55, 48, 49] ∧
    80 ∉ (displayTimeAndTemp ⟨false, 2, 14, 7, 0⟩ ⟨true, false, 23, 45⟩ scrZero).row0 ∧
    77 ∉ (displayTimeAndTemp ⟨false, 2, 14, 7, 0⟩ ⟨true, false, 23, 45⟩ scrZero).row0 ∧
    (displayTimeAndTemp ⟨false, 2, 14, 7, 0⟩ ⟨true, false, 23, 45⟩ scrZero).row1 =
      [84, 50, 51, 67, 32, 72, 52, 53] := by decide

/-! ### Claim C3 -/

lemma drawCharInner_val (x yPos : Int) (f : Nat → Nat) (base fht8 w : Nat) (j : Nat)
    (hx : 0 ≤ x) (hw : x + (w : Int) ≤ 31)
    (hj0 : 0 ≤ (j : Int) + yPos) (hj1 : (j : Int) + yPos ≤ 1) :
    ∀ n, n ≤ w → ∀ (s : Int → Nat),
      (∀ i0, i0 < n →
        ((List.range n).foldl (drawCharColStep x yPos f base fht8 j) s)
          (x + 32 * ((j : Int) + yPos) + (i0 : Int)) = f (base + 1 + fht8 * i0 + j)) ∧
      (∀ t : Int, (∀ i0, i0 < n → t ≠ x + 32 * ((j : Int) + yPos) + (i0 : Int)) →
        ((List.range n).foldl (drawCharColStep x yPos f base fht8 j) s) t = s t) := by
  intro n
  induction n with
  | zero =>
    intro _ s
    exact ⟨fun i0 h => absurd h (Nat.not_lt_zero _), fun t _ => rfl⟩
  | succ n ih =>
    intro hn s
    obtain ⟨ih1, ih2⟩ := ih (Nat.le_of_succ_le hn) s
    have hsplit : (List.range (n + 1)).foldl (drawCharColStep x yPos f base fht8 j) s =
        drawCharColStep x yPos f base fht8 j
          ((List.range n).foldl (drawCharColStep x yPos f base fht8 j) s) n := by
      rw [List.range_succ, List.foldl_append, List.foldl_cons, List.foldl_nil]
    have hguard : 0 ≤ x + (n : Int) ∧ x + (n : Int) < 32 := by omega
    have hstep : ∀ t : Int, drawCharColStep x yPos f base fht8 j
        ((List.range n).foldl (drawCharColStep x yPos f base fht8 j) s) n t =
        if t = x + 32 * ((j : Int) + yPos) + (n : Int) then f (base + 1 + fht8 * n + j)
        else ((List.range n).foldl (drawCharColStep x yPos f base fht8 j) s) t := by
      intro t
      unfold drawCharColStep scrStore
      rw [if_pos hguard, if_pos (by omega)]
    constructor
    · intro i0 hi0
      rw [hsplit, hstep]
      rcases Nat.lt_succ_iff_lt_or_eq.mp hi0 with hlt | rfl
      · rw [if_neg (by intro hcontra; omega)]
        exact ih1 i0 hlt
      · rw [if_pos rfl]
    · intro t hno
      rw [hsplit, hstep, if_neg (hno n (Nat.lt_succ_self n))]
      exact ih2 t fun i0 hi0 => hno i0 (Nat.lt_succ_of_lt hi0)

lemma drawCharRow_val (x yPos : Int) (f : Nat → Nat) (base fht8 w : Nat) (j : Nat)
    (hx : 0 ≤ x) (hw : x + (w : Int) ≤ 31)
    (hj0 : 0 ≤ (j : Int) + yPos) (hj1 : (j : Int) + yPos ≤ 1) (s : Int → Nat) :
    (∀ i0, i0 < w →
      drawCharRow x yPos f base fht8 w j s (x + 32 * ((j : Int) + yPos) + (i0 : Int)) =
        f (base + 1 + fht8 * i0 + j)) ∧
    drawCharRow x yPos f base fht8 w j s (x + 32 * ((j : Int) + yPos) + (w : Int)) = 0 ∧
    (∀ t : Int, (∀ i0, i0 ≤ w → t ≠ x + 32 * ((j : Int) + yPos) + (i0 : Int)) →
      drawCharRow x yPos f base fht8 w j s t = s t) := by
  obtain ⟨hv, ho⟩ := drawCharInner_val x yPos f base fht8 w j hx hw hj0 hj1 w le_rfl s
  have hrow : ∀ t : Int, drawCharRow x yPos f base fht8 w j s t =
      if t = x + 32 * ((j : Int) + yPos) + (w : Int) then 0
      else ((List.range w).foldl (drawCharColStep x yPos f base fht8 j) s) t := by
    intro t
    simp only [drawCharRow]
    rw [if_pos (by omega : x + (w : Int) < 32 ∧ 0 ≤ x + (w : Int))]
    unfold scrStore
    rw [if_pos (by omega)]
  refine ⟨?_, ?_, ?_⟩
  · intro i0 hi0
    rw [hrow, if_neg (by intro hcontra; omega)]
    exact hv i0 hi0
  · rw [hrow, if_pos rfl]
  · intro t hno
    rw [hrow, if_neg (hno w le_rfl)]
    exact ho t fun i0 hi0 => hno i0 (Nat.le_of_lt hi0)

lemma drawCharOuter_val (x yPos : Int) (f : Nat → Nat) (base fht8 w : Nat)
    (hx : 0 ≤ x) (hw : x + (w : Int) ≤ 31) (hy : 0 ≤ yPos)
    (hyr : yPos + (fht8 : Int) ≤ 2) :
    ∀ m, m ≤ fht8 → ∀ (s : Int → Nat), ∀ j0, j0 < m →
      (∀ i0, i0 < w →
        ((List.range m).foldl (fun s j => drawCharRow x yPos f base fht8 w j s) s)
          (x + 32 * ((j0 : Int) + yPos) + (i0 : Int)) = f (base + 1 + fht8 * i0 + j0)) ∧
      ((List.range m).foldl (fun s j => drawCharRow x yPos f base fht8 w j s) s)
        (x + 32 * ((j0 : Int) + yPos) + (w : Int)) = 0 := by
  intro m
  induction m with
  | zero =>
    intro _ s j0 h
    exact absurd h (Nat.not_lt_zero _)
  | succ m ih =>
    intro hm s j0 hj0
    have hsplit : (List.range (m + 1)).foldl
        (fun s j => drawCharRow x yPos f base fht8 w j s) s =
        drawCharRow x yPos f base fht8 w m
          ((List.range m).foldl (fun s j => drawCharRow x yPos f base fht8 w j s) s) := by
      rw [List.range_succ, List.foldl_append, List.foldl_cons, List.foldl_nil]
    have hm1 : (m : Int) + yPos ≤ 1 := by
      have hcast : (m : Int) < (fht8 : Int) := by exact_mod_cast hm
      omega
    have hrv := drawCharRow_val x yPos f base fht8 w m hx hw (by omega) hm1
      ((List.range m).foldl (fun s j => drawCharRow x yPos f base fht8 w j s) s)
    rcases Nat.lt_succ_iff_lt_or_eq.mp hj0 with hlt | rfl
    · have ihj := ih (Nat.le_of_succ_le hm) s j0 hlt
      have hj0m : (j0 : Int) < (m : Int) := by exact_mod_cast hlt
      constructor
      · intro i0 hi0
        rw [hsplit, hrv.2.2 _ (by intro i1 hi1 hcontra; omega)]
        exact ihj.1 i0 hi0
      · rw [hsplit, hrv.2.2 _ (by intro i1 hi1 hcontra; omega)]
        exact ihj.2
    · refine ⟨fun i0 hi0 => ?_, ?_⟩
      · rw [hsplit]
        exact hrv.1 i0 hi0
      · rw [hsplit]
        exact hrv.2.1

/-- C3: Glyph round trip.  For every font table, every supported
character, and every position with the whole glyph (including its
trailing blank column) inside the 32-column, 2-byte-row buffer, the blit
returns the glyph's width byte, writes each of the font table's column
bytes unchanged into columns `x .. x+w-1` at each byte-row, and writes 0
into column `x+w` at each byte-row — reading those cells back reproduces
the table's bit pattern exactly. -/
theorem c3_glyph_roundtrip (f : Nat → Nat) (c : Nat) (x yPos : Int) (scr : Int → Nat)
    (hc : f 2 ≤ c ∧ c ≤ f 3) (hx : 0 ≤ x)
    (hw : x + (glyphWidthAt f c : Int) ≤ 31)
    (hy : 0 ≤ yPos) (hyr : yPos + (glyphRows f : Int) ≤ 2) :
    (drawCharWithY x yPos c f scr).2 = glyphWidthAt f c ∧
    (∀ j, j < glyphRows f → ∀ i, i < glyphWidthAt f c →
      (drawCharWithY x yPos c f scr).1 (x + 32 * ((j : Int) + yPos) + (i : Int)) =
        f (glyphBase f c + 1 + glyphRows f * i + j)) ∧
    (∀ j, j < glyphRows f →
      (drawCharWithY x yPos c f scr).1
        (x + 32 * ((j : Int) + yPos) + (glyphWidthAt f c : Int)) = 0) := by
  have hns : ¬(c < f 2 ∨ f 3 < c) := by
    push_neg
    omega
  have heq : drawCharWithY x yPos c f scr =
      ((List.range (glyphRows f)).foldl
        (fun s j => drawCharRow x yPos f (glyphBase f c) (glyphRows f)
          (glyphWidthAt f c) j s) scr,
       glyphWidthAt f c) := by
    simp only [drawCharWithY]
    rw [if_neg hns]
    rfl
  rw [heq]
  have hout := drawCharOuter_val x yPos f (glyphBase f c) (glyphRows f)
    (glyphWidthAt f c) hx hw hy hyr (glyphRows f) le_rfl scr
  exact ⟨rfl, fun j hj i hi => (hout j hj).1 i hi, fun j hj => (hout j hj).2⟩

/-- Concrete instance of `c3_glyph_roundtrip`: blitting `'0'` from
`digits3x5` at the origin returns width 3, writes the table's first
column byte at cell 0, and blanks the trailing column 3. -/
theorem c3_glyph_roundtrip_witness :
    (digits3x5 2 ≤ 48 ∧ 48 ≤ digits3x5 3) ∧
    (drawCharWithY 0 0 48 digits3x5 scrZero).2 = glyphWidthAt digits3x5 48 ∧
    (drawCharWithY 0 0 48 digits3x5 scrZero).1
      ((0 : Int) + 32 * (((0 : Nat) : Int) + 0) + ((0 : Nat) : Int)) =
      digits3x5 (glyphBase digits3x5 48 + 1 + glyphRows digits3x5 * 0 + 0) ∧
    (drawCharWithY 0 0 48 digits3x5 scrZero).1
      ((0 : Int) + 32 * (((0 : Nat) : Int) + 0) + ((glyphWidthAt digits3x5 48 : Nat) : Int))
      = 0 :=
  have h := c3_glyph_roundtrip digits3x5 48 0 0 scrZero ⟨by decide, by decide⟩ (by decide)
    (by decide) (by decide) (by decide)
  ⟨⟨by decide, by decide⟩, h.1, h.2.1 0 (by decide) 0 (by decide), h.2.2 0 (by decide)⟩
